import Mathlib

/-!
Verification of the Route Construction & Replanning Engine of a walking-tour
planner (backend in Python).  The Python modules are shallowly embedded:

* float arithmetic is modelled exactly over the rationals; transcendental
  geographic distance values (haversine) are abstracted as an arbitrary
  distance function parameter, since every claim under study is independent
  of the numeric values the distance function produces;
* the bearing computation of the directions fallback is modelled over the
  real numbers with the genuine trigonometric functions;
* Python exceptions are modelled with Except; Python list subscripts follow
  Python semantics (negative indices count from the end, out-of-range
  subscripts raise IndexError);
* external collaborators (the places search provider, the static POI
  catalog file) enter as explicit list parameters holding their results.
-/

namespace HackTour

/-- A (latitude, longitude) pair, source type tuple[float, float]. -/
abbrev Coord := ℚ × ℚ

/-! ## Python list primitives -/

/-- Python subscript l[i]: nonnegative indices from the front, negative
indices from the end, anything else raises IndexError. -/
def pyGet (l : List α) (i : ℤ) : Except Unit α :=
  if h : 0 ≤ i ∧ i < (l.length : ℤ) then
    .ok (l.get ⟨i.toNat, by omega⟩)
  else if h2 : -(l.length : ℤ) ≤ i ∧ i < 0 then
    .ok (l.get ⟨((l.length : ℤ) + i).toNat, by omega⟩)
  else
    .error ()

/-- Python slice l[:k]: clamps, negative k counts from the end. -/
def pySliceTo (l : List α) (k : ℤ) : List α :=
  if 0 ≤ k then l.take k.toNat else l.take ((l.length : ℤ) + k).toNat

/-- Effective position used by Python list.insert(i, x): clamped to
[0, len], negative i counted from the end. -/
def pyInsertIdx (len : ℕ) (i : ℤ) : ℕ :=
  if i < 0 then ((len : ℤ) + i).toNat else min i.toNat len

/-- Python list.insert(i, x). -/
def pyInsert (l : List α) (i : ℤ) (x : α) : List α :=
  l.insertIdx (pyInsertIdx l.length i) x

/-! ## models/state.py -/

/-- TourStatus enum from models/state.py. -/
inductive TourStatus where
  | initial
  | traveling
  | poi
  | complete
deriving DecidableEq, Fintype, Repr

/-- POIStop dataclass from models/state.py.  estimated_time is an int in
the source; minutes values are modelled in the rationals because the route
builder mixes them with float walking times. -/
structure POIStop where
  id : String
  name : String
  coordinates : Coord
  address : String
  poi_type : String
  estimated_time : ℚ := 8
  themes : List String := []
deriving DecidableEq, Repr

instance : Inhabited POIStop :=
  ⟨{ id := "", name := "", coordinates := (0, 0), address := "", poi_type := "" }⟩

/-- Route dataclass from models/state.py.  current_stop_index is a Python
int, hence modelled as an integer (the dataclass does not enforce a range). -/
structure Route where
  stops : List POIStop := []
  current_stop_index : ℤ := 0
  destination_coords : Option Coord := none
deriving DecidableEq, Repr

/-- Route.current_stop property: stops[idx] when 0 <= idx < len, else None. -/
def Route.current_stop (r : Route) : Option POIStop :=
  if h : 0 ≤ r.current_stop_index ∧ r.current_stop_index < (r.stops.length : ℤ) then
    some (r.stops.get ⟨r.current_stop_index.toNat, by omega⟩)
  else
    none

/-- Route.next_stop property: guarded only by next_idx < len, so the
subscript itself follows full Python semantics and can raise. -/
def Route.next_stop (r : Route) : Except Unit (Option POIStop) :=
  let next_idx := r.current_stop_index + 1
  if next_idx < (r.stops.length : ℤ) then
    (pyGet r.stops next_idx).map some
  else
    .ok none

/-- Route.advance: move the cursor forward when not already at the last
stop; returns the mutated route and the Python return value. -/
def Route.advance (r : Route) : Route × Bool :=
  if r.current_stop_index < (r.stops.length : ℤ) - 1 then
    ({ r with current_stop_index := r.current_stop_index + 1 }, true)
  else
    (r, false)

/-- Status transition table from TourState.transition_to. -/
def valid_transitions (s : TourStatus) : List TourStatus :=
  match s with
  | .initial => [.traveling]
  | .traveling => [.poi, .complete]
  | .poi => [.traveling, .complete]
  | .complete => []

/-- TourState.transition_to: mutate the status when legal, raise ValueError
otherwise.  Only the status field is read or written, so the embedding acts
on the status; the error case models the raise (no mutation happens before
the raise). -/
def transition_to (status new_status : TourStatus) : Except String TourStatus :=
  if new_status ∈ valid_transitions status then
    .ok new_status
  else
    .error "Invalid transition"

/-- The transition endpoint in routes/tour.py catches the ValueError, so a
rejected request leaves the session status as it was.  Returns the status
after the request together with whether the transition was accepted. -/
def runTransition (status new_status : TourStatus) : TourStatus × Bool :=
  match transition_to status new_status with
  | .ok s => (s, true)
  | .error _ => (status, false)

/-- The legal (from, to) pairs of the spec table, section 4.5. -/
def legalPairs : List (TourStatus × TourStatus) :=
  [(.initial, .traveling), (.traveling, .poi), (.traveling, .complete),
   (.poi, .traveling), (.poi, .complete)]

/-- Response of the advance endpoint in routes/tour.py (the fields the
claims mention). -/
structure AdvanceResponse where
  success : Bool
  current_stop_index : Option ℤ
  is_complete : Option Bool
deriving DecidableEq, Repr

/-- advance_stop endpoint from routes/tour.py: calls Route.advance and
reports is_complete=True exactly when the route was already at its last
stop. -/
def advance_stop (r : Route) : Route × AdvanceResponse :=
  let p := r.advance
  if p.2 then
    (p.1, { success := true, current_stop_index := some p.1.current_stop_index,
            is_complete := none })
  else
    (p.1, { success := false, current_stop_index := none, is_complete := some true })

/-- Cursor invariant stated by the spec, section 3. -/
def RouteInv (r : Route) : Prop :=
  0 ≤ r.current_stop_index ∧ r.current_stop_index ≤ (r.stops.length : ℤ)

instance (r : Route) : Decidable (RouteInv r) := by
  unfold RouteInv; infer_instance

/-! ## services/routing.py -/

/-- estimate_walking_time: minutes for a distance in meters at 5 km/h. -/
def estimate_walking_time (distance_meters : ℚ) : ℚ :=
  let walking_speed_mpm : ℚ := 5000 / 60
  distance_meters / walking_speed_mpm

/-- A result of the external places search (services/knowledge.py
search_places output shape).  rating is None or absent for unrated places;
Python truthiness additionally treats a 0 rating as absent. -/
structure Place where
  place_id : String
  name : String
  coordinates : Coord
  address : String
  rating : Option ℚ := none
  types : List String := []
deriving DecidableEq, Repr

/-- Truthiness of p.get("rating"): present and nonzero. -/
def ratingTruthy (p : Place) : Bool :=
  match p.rating with
  | some r => decide (r ≠ 0)
  | none => false

/-- A POI dict as used by routing.py: the curated catalog entries and the
candidates converted from dynamic search results share this shape. -/
structure PoiDict where
  id : String
  name : String
  coordinates : Coord
  address : String
  poi_type : String
  themes : List String := []
  estimated_duration : Option ℚ := none
  facts : List String := []
  interactive_questions : List String := []
deriving DecidableEq, Repr

/-- The dynamic-search places kept by generate_route: a place is skipped
exactly when its rating is truthy and below 3.5. -/
def dynamic_keep (places : List Place) : List Place :=
  places.filter (fun p => !(ratingTruthy p && decide (p.rating.getD 0 < (7/2 : ℚ))))

/-- Conversion of a kept dynamic place into the candidate dict shape. -/
def place_to_candidate (theme : String) (p : Place) : PoiDict :=
  { id := p.place_id
    name := p.name
    coordinates := p.coordinates
    address := p.address
    poi_type := p.types.headD ("point_of_interest")
    themes := [theme]
    estimated_duration := some 15
    facts := []
    interactive_questions := [] }

/-- Candidates produced by the dynamic branch of generate_route. -/
def dynamic_candidates (theme : String) (places : List Place) : List PoiDict :=
  (dynamic_keep places).map (place_to_candidate theme)

/-- Stable insert for ascending sort by a rational key: the new element
goes after every element whose key is less than or equal to its own. -/
def insertAsc (key : α → ℚ) (x : α) : List α → List α
  | [] => [x]
  | y :: ys => if key y ≤ key x then y :: insertAsc key x ys else x :: y :: ys

/-- Python list.sort(key=...) is a stable ascending sort; a stable sort is
determined uniquely by the key order, so this structural insertion sort
computes the same list (and, unlike a well-founded merge sort, reduces
inside the kernel). -/
def pySortAsc (key : α → ℚ) (l : List α) : List α :=
  l.foldl (fun acc x => insertAsc key x acc) []

/-- Stable insert for descending sort by a rational key. -/
def insertDesc (key : α → ℚ) (x : α) : List α → List α
  | [] => [x]
  | y :: ys => if key x ≤ key y then y :: insertDesc key x ys else x :: y :: ys

/-- Python list.sort(key=..., reverse=True): stable descending sort. -/
def pySortDesc (key : α → ℚ) (l : List α) : List α :=
  l.foldl (fun acc x => insertDesc key x acc) []

/-- filter_pois_by_theme from routing.py. -/
def filter_pois_by_theme (pois : List PoiDict) (theme : String) : List PoiDict :=
  pois.filter (fun poi => decide (theme ∈ poi.themes))

/-- score_poi from routing.py. -/
def score_poi (poi : PoiDict) (theme : String) : ℚ :=
  let score : ℚ := 1
  let score := if poi.themes.headD ("") = theme ∧ poi.themes ≠ [] then score + 1 else score
  let score := score + (poi.facts.length : ℚ) * (1/10)
  score + (poi.interactive_questions.length : ℚ) * (1/5)

/-- The static fallback branch of generate_route: theme filter with
whole-catalog fallback, stable descending sort by score (Python sort with
reverse=True), top 3 * max_stops kept. -/
def static_candidates (all_pois : List PoiDict) (theme : String) (max_stops : ℕ) :
    List PoiDict :=
  let themed_pois := filter_pois_by_theme all_pois theme
  let themed_pois := if themed_pois = [] then all_pois else themed_pois
  let scored_pois := themed_pois.map (fun poi => (poi, score_poi poi theme))
  let scored_pois := pySortDesc (fun a => a.2) scored_pois
  (scored_pois.map Prod.fst).take (max_stops * 3)

/-- The candidate pool generate_route builds before its greedy loop. -/
def candidate_pool (theme : String) (max_stops : ℕ) (places : List Place)
    (all_pois : List PoiDict) (use_dynamic_search : Bool) : List PoiDict :=
  let candidates := if use_dynamic_search then dynamic_candidates theme places else []
  if candidates = [] then static_candidates all_pois theme max_stops else candidates

/-- One comparison step of the nearest-candidate scan: a candidate beats
the running best exactly when its distance is strictly smaller (the running
best being None models best_distance = infinity, which any distance
beats). -/
def betterOf (dist : Coord → Coord → ℚ) (pos : Coord) (poi : PoiDict)
    (best : Option (PoiDict × ℚ)) : Option (PoiDict × ℚ) :=
  match best with
  | none => some (poi, dist pos poi.coordinates)
  | some (b, bd) =>
    if dist pos poi.coordinates < bd then
      some (poi, dist pos poi.coordinates)
    else
      some (b, bd)

/-- The nearest-unvisited scan of the greedy loop: best_poi starts as None
with best_distance infinity, candidates whose id is already used are
skipped, a strictly smaller distance replaces the best (first encountered
wins ties). -/
def findNearestAux (dist : Coord → Coord → ℚ) (pos : Coord) (used : List String) :
    List PoiDict → Option (PoiDict × ℚ) → Option (PoiDict × ℚ)
  | [], best => best
  | poi :: rest, best =>
    if poi.id ∈ used then
      findNearestAux dist pos used rest best
    else
      findNearestAux dist pos used rest (betterOf dist pos poi best)

/-- Nearest unvisited candidate together with its distance. -/
def findNearest (dist : Coord → Coord → ℚ) (pos : Coord) (used : List String)
    (candidates : List PoiDict) : Option (PoiDict × ℚ) :=
  findNearestAux dist pos used candidates none

/-- The POIStop committed by the greedy loop. -/
def commitStop (best_poi : PoiDict) (stop_duration : ℚ) : POIStop :=
  { id := best_poi.id
    name := best_poi.name
    coordinates := best_poi.coordinates
    address := best_poi.address
    poi_type := best_poi.poi_type
    estimated_time := stop_duration
    themes := best_poi.themes }

/-- Bookkeeping step of the loop model: pass the recursive result through
and count one more iteration. -/
def stepResult (r : List POIStop × ℕ × Bool) : List POIStop × ℕ × Bool :=
  (r.1, r.2.1 + 1, r.2.2)

/-- The greedy while loop of generate_route.  The fuel argument makes the
recursion structural; generate_route supplies fuel equal to the size of the
candidate pool, and routeLoop_spec below proves that this fuel is never
exhausted (third component true: the loop left through one of its own exit
conditions), because every iteration that does not exit removes exactly one
candidate from the pool.  The second component counts loop iterations. -/
def routeLoopF (dist : Coord → Coord → ℚ) (max_stops : ℕ) :
    ℕ → List PoiDict → List POIStop → Coord → ℚ → List String →
    List POIStop × ℕ × Bool
  | 0, candidates, route_stops, _, remaining_time, _ =>
    if candidates ≠ [] ∧ route_stops.length < max_stops ∧ 10 < remaining_time then
      (route_stops, 0, false)
    else
      (route_stops, 0, true)
  | fuel + 1, candidates, route_stops, current_pos, remaining_time, used_ids =>
    if candidates ≠ [] ∧ route_stops.length < max_stops ∧ 10 < remaining_time then
      match findNearest dist current_pos used_ids candidates with
      | none => (route_stops, 1, true)
      | some (best_poi, best_distance) =>
        if estimate_walking_time best_distance +
            best_poi.estimated_duration.getD 8 > remaining_time then
          stepResult (routeLoopF dist max_stops fuel (candidates.erase best_poi)
            route_stops current_pos remaining_time used_ids)
        else
          stepResult (routeLoopF dist max_stops fuel (candidates.erase best_poi)
            (route_stops ++
              [commitStop best_poi (best_poi.estimated_duration.getD 8)])
            best_poi.coordinates
            (remaining_time - (estimate_walking_time best_distance +
              best_poi.estimated_duration.getD 8))
            (used_ids ++ [best_poi.id]))
    else
      (route_stops, 0, true)

/-- generate_route from routing.py, with the external inputs (the distance
function, the dynamic search results, the curated catalog) passed
explicitly. -/
def generate_route (dist : Coord → Coord → ℚ) (places : List Place)
    (all_pois : List PoiDict) (start_coords : Coord) (theme : String)
    (time_budget_minutes : ℚ) (max_stops : ℕ) (end_coords : Option Coord)
    (use_dynamic_search : Bool) : Route :=
  let candidates := candidate_pool theme max_stops places all_pois use_dynamic_search
  let r := routeLoopF dist max_stops candidates.length candidates []
    start_coords time_budget_minutes []
  { stops := r.1, current_stop_index := 0, destination_coords := end_coords }

/-- Walking time from each previous position plus dwell time, summed along
a stop list: the quantity the time-budget claim bounds. -/
def routeCost (dist : Coord → Coord → ℚ) : Coord → List POIStop → ℚ
  | _, [] => 0
  | pos, s :: rest =>
    estimate_walking_time (dist pos s.coordinates) + s.estimated_time +
      routeCost dist s.coordinates rest

/-! ## agents/director.py -/

/-- UserPreferences dataclass from models/state.py (guide_personality kept
as its string value). -/
structure UserPreferences where
  tour_length : ℤ := 60
  theme : String := ("historical")
  sound_effects : Bool := true
  guide_personality : String := ("friendly")
  interactive : Bool := true
deriving DecidableEq, Repr

/-- TourState from models/state.py, restricted to the fields the route
engine reads or writes (id, timestamps, conversation history and caches are
irrelevant to every claim; the elapsed wall-clock minutes derived from
created_at enter replan_change_theme as an explicit parameter). -/
structure TourState where
  preferences : UserPreferences := {}
  route : Route := {}
  status : TourStatus := .initial
  current_location : Option Coord := none
deriving DecidableEq, Repr

/-- get_config().default_start_location from config.py. -/
def default_start_location : Coord := (41824/1000, -714128/10000)

/-- The quality filter of TourDirectorAgent.find_nearby_places, applied to
the external search results: keep the places with a truthy rating of at
least 2.0, unless none qualifies, in which case the whole unfiltered result
list is returned. -/
def find_nearby_places (places : List Place) : List Place :=
  let high_quality :=
    places.filter (fun p => ratingTruthy p && decide ((2 : ℚ) ≤ p.rating.getD 0))
  if high_quality ≠ [] then high_quality else places

/-- Python range(a, b) over integers. -/
def intRange (a b : ℤ) : List ℤ :=
  (List.range (b - a).toNat).map (fun k : ℕ => a + (k : ℤ))

/-- Added cost of inserting a candidate at index i, as computed inside
TourDirectorAgent.rank_candidates_by_insertion.  The source reads
tour.current_location (an Optional) in the i == 0 branch; a None there
would raise inside haversine, which no claim exercises, so the model
substitutes (0, 0) for an absent location. -/
def insertionCost (dist : Coord → Coord → ℚ) (current_location : Option Coord)
    (stops : List POIStop) (place_coords : Coord) (i : ℤ) : ℚ :=
  let prev_coords : Coord :=
    if i = 0 then current_location.getD (0, 0)
    else (stops.getD (i - 1).toNat default).coordinates
  let next_coords : Option Coord :=
    if i < (stops.length : ℤ) then some (stops.getD i.toNat default).coordinates
    else none
  let dist_prev_place := dist prev_coords place_coords
  match next_coords with
  | some nc => dist_prev_place + dist place_coords nc - dist prev_coords nc
  | none => dist_prev_place

/-- One comparison of the insertion-point scan: a strictly smaller cost
replaces the running best (None models the initial best_idx = -1 with
min_added_cost infinity). -/
def bestStep (i : ℤ) (c : ℚ) (acc : Option (ℤ × ℚ)) : Option (ℤ × ℚ) :=
  match acc with
  | none => some (i, c)
  | some (bi, bc) => if c < bc then some (i, c) else some (bi, bc)

/-- The inner scan over insertion points: the first index achieving the
minimum cost wins. -/
def bestInsertionAux (cost : ℤ → ℚ) :
    List ℤ → Option (ℤ × ℚ) → Option (ℤ × ℚ)
  | [], acc => acc
  | i :: rest, acc => bestInsertionAux cost rest (bestStep i (cost i) acc)

/-- TourDirectorAgent.rank_candidates_by_insertion: for each candidate,
scan insertion indices from current_stop_index + 1 through len(stops)
inclusive, record the candidate with its best index and minimum added cost
when the scan recorded anything, and sort ascending by cost (Python sort is
stable). -/
def rank_candidates_by_insertion (dist : Coord → Coord → ℚ) (tour : TourState)
    (candidates : List Place) : List (Place × ℤ × ℚ) :=
  let stops := tour.route.stops
  let start_idx := tour.route.current_stop_index + 1
  let results := candidates.filterMap (fun place =>
    (bestInsertionAux
        (insertionCost dist tour.current_location stops place.coordinates)
        (intRange start_idx ((stops.length : ℤ) + 1)) none).map
      (fun p => (place, p.1, p.2)))
  pySortAsc (fun x => x.2.2) results

/-- Added insertion cost as the claim words it: the predecessor of the
first legal index is the current location of the user.  This definition
transcribes the claim sentence (prev = currentLocation exactly when i is
the insertion start), to be compared with insertionCost above. -/
def insertionCost_claim (dist : Coord → Coord → ℚ) (current_location : Option Coord)
    (start_idx : ℤ) (stops : List POIStop) (place_coords : Coord) (i : ℤ) : ℚ :=
  let prev_coords : Coord :=
    if i = start_idx then current_location.getD (0, 0)
    else (stops.getD (i - 1).toNat default).coordinates
  let next_coords : Option Coord :=
    if i < (stops.length : ℤ) then some (stops.getD i.toNat default).coordinates
    else none
  let dist_prev_place := dist prev_coords place_coords
  match next_coords with
  | some nc => dist_prev_place + dist place_coords nc - dist prev_coords nc
  | none => dist_prev_place

/-- The insertion planner as the claim describes it: identical to
rank_candidates_by_insertion except that the predecessor at the first legal
index is the current location of the user. -/
def rank_candidates_claim (dist : Coord → Coord → ℚ) (tour : TourState)
    (candidates : List Place) : List (Place × ℤ × ℚ) :=
  let stops := tour.route.stops
  let start_idx := tour.route.current_stop_index + 1
  let results := candidates.filterMap (fun place =>
    (bestInsertionAux
        (insertionCost_claim dist tour.current_location start_idx stops
          place.coordinates)
        (intRange start_idx ((stops.length : ℤ) + 1)) none).map
      (fun p => (place, p.1, p.2)))
  pySortAsc (fun x => x.2.2) results

/-- Added insertion cost with the predecessor taken from the stop list at
every legal index (the amended reading: the current-location branch of the
source is dead because the scan starts at current_stop_index + 1 >= 1). -/
def insertionCost_amended (dist : Coord → Coord → ℚ) (stops : List POIStop)
    (place_coords : Coord) (i : ℤ) : ℚ :=
  let prev_coords : Coord := (stops.getD (i - 1).toNat default).coordinates
  let next_coords : Option Coord :=
    if i < (stops.length : ℤ) then some (stops.getD i.toNat default).coordinates
    else none
  let dist_prev_place := dist prev_coords place_coords
  match next_coords with
  | some nc => dist_prev_place + dist place_coords nc - dist prev_coords nc
  | none => dist_prev_place

/-- The insertion planner with the amended predecessor rule. -/
def rank_candidates_amended (dist : Coord → Coord → ℚ) (tour : TourState)
    (candidates : List Place) : List (Place × ℤ × ℚ) :=
  let stops := tour.route.stops
  let start_idx := tour.route.current_stop_index + 1
  let results := candidates.filterMap (fun place =>
    (bestInsertionAux
        (insertionCost_amended dist stops place.coordinates)
        (intRange start_idx ((stops.length : ℤ) + 1)) none).map
      (fun p => (place, p.1, p.2)))
  pySortAsc (fun x => x.2.2) results

/-- Route mutation of commit mode: tour.route.stops.insert(insert_idx,
new_stop), Python insert semantics. -/
def Route.insert_stop (r : Route) (insert_idx : ℤ) (new_stop : POIStop) : Route :=
  { r with stops := pyInsert r.stops insert_idx new_stop }

/-- Route mutation of the theme-change replan: stops[:current_stop_index+1]
plus the fresh segment. -/
def Route.replace_after_cursor (r : Route) (segment : List POIStop) : Route :=
  { r with stops := pySliceTo r.stops (r.current_stop_index + 1) ++ segment }

/-- The change_theme branch of TourDirectorAgent.replan_route.
elapsed_minutes is the integer number of elapsed minutes the source derives
from created_at (int applied to a nonnegative wall-clock difference); the
dynamic search results and the curated catalog are explicit inputs as in
generate_route. -/
def replan_change_theme (dist : Coord → Coord → ℚ) (places : List Place)
    (all_pois : List PoiDict) (tour : TourState) (query : String)
    (elapsed_minutes : ℤ) : TourState :=
  let current_loc := tour.current_location.getD default_start_location
  let remaining_time : ℤ := max 20 (tour.preferences.tour_length - elapsed_minutes)
  let new_route_segment :=
    generate_route dist places all_pois current_loc query (remaining_time : ℚ)
      5 none true
  if new_route_segment.stops ≠ [] then
    { tour with route := tour.route.replace_after_cursor new_route_segment.stops }
  else
    tour

/-! ## The directions fallback of routing.py (bearing computation)

The haversine-estimation fallback of get_walking_directions is modelled
over the real numbers with genuine trigonometric functions (Python floats
idealised as reals). -/

/-- math.radians. -/
noncomputable def radians (x : ℝ) : ℝ := x * (Real.pi / 180)

/-- math.degrees. -/
noncomputable def degrees (x : ℝ) : ℝ := x * (180 / Real.pi)

/-- math.atan2(y, x): the angle of the point (x, y), in (-pi, pi]. -/
noncomputable def atan2 (y x : ℝ) : ℝ := Complex.arg ⟨x, y⟩

/-- The bearing computed by the fallback branch of get_walking_directions:
degrees(atan2(x, y)) for the local east and north components. -/
noncomputable def bearing_degrees (origin destination : ℝ × ℝ) : ℝ :=
  let lat1 := radians origin.1
  let lon1 := radians origin.2
  let lat2 := radians destination.1
  let lon2 := radians destination.2
  let dlon := lon2 - lon1
  let x := Real.sin dlon * Real.cos lat2
  let y := Real.cos lat1 * Real.sin lat2 -
    Real.sin lat1 * Real.cos lat2 * Real.cos dlon
  degrees (atan2 x y)

/-- Python round on a float: round half to even. -/
noncomputable def pyRound (x : ℝ) : ℤ :=
  if Int.fract x = 1/2 then (if Even ⌊x⌋ then ⌊x⌋ else ⌊x⌋ + 1) else round x

/-- The 8 cardinal directions of the fallback. -/
def directions_list : List String :=
  [("north"), ("northeast"), ("east"), ("southeast"),
   ("south"), ("southwest"), ("west"), ("northwest")]

/-- The cardinal direction placed into the fallback instruction string:
directions_list[round(bearing / 45) % 8], with the Python nonnegative
modulo. -/
noncomputable def cardinal_direction (origin destination : ℝ × ℝ) : String :=
  directions_list.getD (((pyRound (bearing_degrees origin destination / 45)) % 8).toNat)
    ("north")

/-! ## Concrete inputs used by witnesses and counterexamples -/

/-- A concrete stop used by witnesses. -/
def sampleStop : POIStop :=
  { id := ("p1"), name := ("Stop One"), coordinates := (1, 2),
    address := ("1 Main St"), poi_type := ("museum") }

/-- A constant distance function (250 meters everywhere). -/
def distW : Coord → Coord → ℚ := fun _ _ => 250

/-- A curated catalog entry tagged historical. -/
def poiW : PoiDict :=
  { id := ("w1"), name := ("Old Hall"), coordinates := (1, 1),
    address := ("2 Main St"), poi_type := ("landmark"),
    themes := [("historical")] }

/-- A search result with a low known rating. -/
def pLow : Place :=
  { place_id := ("low"), name := ("Dive"), coordinates := (1, 1),
    address := ("3 Main St"), rating := some 1 }

/-- A search result with a high known rating. -/
def pGood : Place :=
  { place_id := ("good"), name := ("Gem"), coordinates := (2, 2),
    address := ("4 Main St"), rating := some 4 }

/-- First stop of the insertion-planner counterexample route. -/
def stopS0 : POIStop :=
  { id := ("s0"), name := ("S Zero"), coordinates := (1, 0),
    address := (""), poi_type := ("t") }

/-- Second stop of the insertion-planner counterexample route. -/
def stopS1 : POIStop :=
  { id := ("s1"), name := ("S One"), coordinates := (2, 0),
    address := (""), poi_type := ("t") }

/-- The candidate of the insertion-planner counterexample. -/
def candC : Place :=
  { place_id := ("c"), name := ("Cafe"), coordinates := (3, 0),
    address := ("5 Main St"), rating := none }

/-- Session of the insertion-planner counterexample: cursor on the first
of two stops, user located at (0, 0). -/
def tourC : TourState :=
  { preferences := {}, status := .traveling, current_location := some (9, 0),
    route := { stops := [stopS0, stopS1], current_stop_index := 0 } }

/-- Distance table of the insertion-planner counterexample (symmetric, 0
on every pair not listed; only the listed pairs are ever queried). -/
def distC : Coord → Coord → ℚ := fun p q =>
  if (p = (1, 0) ∧ q = (3, 0)) ∨ (p = (3, 0) ∧ q = (1, 0)) then 30
  else if (p = (3, 0) ∧ q = (2, 0)) ∨ (p = (2, 0) ∧ q = (3, 0)) then 100
  else if (p = (1, 0) ∧ q = (2, 0)) ∨ (p = (2, 0) ∧ q = (1, 0)) then 80
  else if (p = (9, 0) ∧ q = (3, 0)) ∨ (p = (3, 0) ∧ q = (9, 0)) then 500
  else if (p = (9, 0) ∧ q = (2, 0)) ∨ (p = (2, 0) ∧ q = (9, 0)) then 10
  else 0

/-- A dynamic search result good enough for the 3.5 route-generation
threshold. -/
def pDyn : Place :=
  { place_id := ("d1"), name := ("Gallery"), coordinates := (5, 5),
    address := ("6 Main St"), rating := some 4, types := [("art_gallery")] }

/-- Session used by the replan witness: one stop, cursor on it. -/
def tourW : TourState :=
  { preferences := {}, status := .traveling, current_location := some (7, 7),
    route := { stops := [sampleStop], current_stop_index := 0 } }

/-! ## Theorems -/

/-- C3: a status transition succeeds exactly for the pairs of the legal
transition table (COMPLETE has no outgoing transition), every other pair is
rejected through the invalid-transition error, and the stored status after
a rejected request is the status from before it. -/
theorem transition_table_exact :
    ∀ s n : TourStatus,
      ((runTransition s n).2 = true ↔ (s, n) ∈ legalPairs) ∧
      (runTransition s n).1 = (if (runTransition s n).2 then n else s) ∧
      ((transition_to s n).isOk = true ↔ (s, n) ∈ legalPairs) := by
  decide

/-- C9: advance on a route already at its last stop returns false, the
endpoint reports the tour-complete signal, and the cursor is unchanged (the
operation is a total function in this model: it cannot raise). -/
theorem advance_at_last_stop (r : Route)
    (h : r.current_stop_index = (r.stops.length : ℤ) - 1) (_hne : r.stops ≠ []) :
    (r.advance).2 = false ∧
    (advance_stop r).2.success = false ∧
    (advance_stop r).2.is_complete = some true ∧
    (advance_stop r).1 = r := by
  have hlt : ¬ r.current_stop_index < (r.stops.length : ℤ) - 1 := by omega
  unfold advance_stop Route.advance
  simp [hlt]

/-- C9 witness: a one-stop route with the cursor on its only stop. -/
theorem advance_at_last_stop_witness :
    ((Route.mk [sampleStop] 0 none).advance).2 = false ∧
    (advance_stop (Route.mk [sampleStop] 0 none)).2.success = false ∧
    (advance_stop (Route.mk [sampleStop] 0 none)).2.is_complete = some true ∧
    (advance_stop (Route.mk [sampleStop] 0 none)).1 = Route.mk [sampleStop] 0 none :=
  advance_at_last_stop (Route.mk [sampleStop] 0 none) (by decide) (by decide)

/-- C10 counterexample: the claim quantifies over every route state, but
the Route dataclass does not constrain current_stop_index.  At cursor -10
with one stop, next_stop evaluates stops[-9], which raises IndexError; and
advance on an empty route with cursor 7 leaves the cursor at 7, not 0. -/
theorem route_accessors_counterexample :
    (Route.mk [sampleStop] (-10) none).next_stop = .error () ∧
    ((Route.mk [] 7 none).advance).2 = false ∧
    ((Route.mk [] 7 none).advance).1.current_stop_index = 7 ∧ (7 : ℤ) ≠ 0 :=
  ⟨rfl, by decide⟩

/-- C10 amended: on every route state satisfying the cursor invariant
0 <= currentIndex <= len(stops) (empty stop lists included), the accessors
are total: current_stop returns a stop exactly when the cursor is in
bounds, next_stop never raises and returns a stop exactly when the
successor index is in bounds, and advance on an empty route returns false
and leaves the cursor at 0. -/
theorem route_accessors_total (r : Route) (h : RouteInv r) :
    ((r.current_stop).isSome ↔ r.current_stop_index < (r.stops.length : ℤ)) ∧
    (∃ o, r.next_stop = .ok o ∧
      (o.isSome ↔ r.current_stop_index + 1 < (r.stops.length : ℤ))) ∧
    (r.stops = [] → (r.advance).2 = false ∧ (r.advance).1.current_stop_index = 0) := by
  obtain ⟨h0, hlen⟩ := h
  refine ⟨?_, ?_, ?_⟩
  · unfold Route.current_stop
    split
    · rename_i hc
      simp
      omega
    · rename_i hc
      simp
      omega
  · unfold Route.next_stop pyGet
    by_cases hb : r.current_stop_index + 1 < (r.stops.length : ℤ)
    · refine ⟨some (r.stops.get ⟨(r.current_stop_index + 1).toNat, by omega⟩), ?_, ?_⟩
      · rw [if_pos hb, dif_pos ⟨by omega, hb⟩]
        rfl
      · simp [hb]
    · exact ⟨none, by rw [if_neg hb], by simp [hb]⟩
  · intro hnil
    have hi : r.current_stop_index = 0 := by
      rw [hnil] at hlen
      simp at hlen
      omega
    have hcond : ¬ r.current_stop_index < (r.stops.length : ℤ) - 1 := by
      rw [hnil]
      simp
      omega
    unfold Route.advance
    rw [if_neg hcond]
    exact ⟨rfl, hi⟩

/-- C10 amended witness: the empty route in its initial state. -/
theorem route_accessors_total_witness :
    RouteInv (Route.mk [] 0 none) ∧
    (((Route.mk [] 0 none).current_stop).isSome ↔
      (Route.mk [] 0 none).current_stop_index < ((Route.mk [] 0 none).stops.length : ℤ)) ∧
    (∃ o, (Route.mk [] 0 none).next_stop = .ok o ∧
      (o.isSome ↔ (Route.mk [] 0 none).current_stop_index + 1 <
        ((Route.mk [] 0 none).stops.length : ℤ))) ∧
    ((Route.mk [] 0 none).stops = [] → ((Route.mk [] 0 none).advance).2 = false ∧
      ((Route.mk [] 0 none).advance).1.current_stop_index = 0) :=
  ⟨by decide, route_accessors_total (Route.mk [] 0 none) (by decide)⟩

/-- C7: the three route-mutating operations (cursor advancement,
commit-mode insertion, wholesale replacement after the cursor) preserve the
cursor invariant 0 <= currentIndex <= len(stops), and none of them
decreases the cursor. -/
theorem route_ops_preserve_invariant (r : Route) (i : ℤ) (s : POIStop)
    (seg : List POIStop) (h : RouteInv r) :
    (RouteInv (r.advance).1 ∧
      r.current_stop_index ≤ (r.advance).1.current_stop_index) ∧
    (RouteInv (r.insert_stop i s) ∧
      (r.insert_stop i s).current_stop_index = r.current_stop_index) ∧
    (RouteInv (r.replace_after_cursor seg) ∧
      (r.replace_after_cursor seg).current_stop_index = r.current_stop_index) := by
  obtain ⟨h0, hlen⟩ := h
  refine ⟨?_, ⟨⟨h0, ?_⟩, rfl⟩, ⟨⟨h0, ?_⟩, rfl⟩⟩
  · unfold Route.advance RouteInv
    split <;> simp <;> omega
  · show r.current_stop_index ≤ ((pyInsert r.stops i s).length : ℤ)
    have hle : pyInsertIdx r.stops.length i ≤ r.stops.length := by
      unfold pyInsertIdx
      split <;> omega
    unfold pyInsert
    rw [List.length_insertIdx _ _ hle]
    omega
  · show r.current_stop_index ≤
      ((pySliceTo r.stops (r.current_stop_index + 1) ++ seg).length : ℤ)
    have hpos : (0 : ℤ) ≤ r.current_stop_index + 1 := by omega
    unfold pySliceTo
    rw [if_pos hpos]
    simp
    omega

/-- C7 witness: a two-stop route with the cursor on the first stop. -/
theorem route_ops_preserve_invariant_witness :
    RouteInv (Route.mk [sampleStop, sampleStop] 1 none) ∧
    ((RouteInv ((Route.mk [sampleStop, sampleStop] 1 none).advance).1 ∧
      (Route.mk [sampleStop, sampleStop] 1 none).current_stop_index ≤
        ((Route.mk [sampleStop, sampleStop] 1 none).advance).1.current_stop_index) ∧
    (RouteInv ((Route.mk [sampleStop, sampleStop] 1 none).insert_stop 2 sampleStop) ∧
      ((Route.mk [sampleStop, sampleStop] 1 none).insert_stop 2 sampleStop).current_stop_index =
        (Route.mk [sampleStop, sampleStop] 1 none).current_stop_index) ∧
    (RouteInv ((Route.mk [sampleStop, sampleStop] 1 none).replace_after_cursor [sampleStop]) ∧
      ((Route.mk [sampleStop, sampleStop] 1 none).replace_after_cursor
          [sampleStop]).current_stop_index =
        (Route.mk [sampleStop, sampleStop] 1 none).current_stop_index)) :=
  ⟨by decide,
    route_ops_preserve_invariant (Route.mk [sampleStop, sampleStop] 1 none) 2 sampleStop
      [sampleStop] (by decide)⟩

/-- Stop list of a counted step. -/
theorem stepResult_stops (r : List POIStop × ℕ × Bool) :
    (stepResult r).1 = r.1 := rfl

/-- Iteration count of a counted step. -/
theorem stepResult_iters (r : List POIStop × ℕ × Bool) :
    (stepResult r).2.1 = r.2.1 + 1 := rfl

/-- Natural-exit flag of a counted step. -/
theorem stepResult_flag (r : List POIStop × ℕ × Bool) :
    (stepResult r).2.2 = r.2.2 := rfl

/-- A comparison step yields the scanned candidate or what was best
already. -/
theorem betterOf_cases (dist : Coord → Coord → ℚ) (pos : Coord) (poi : PoiDict)
    (acc : Option (PoiDict × ℚ)) (b : PoiDict) (d : ℚ)
    (h : betterOf dist pos poi acc = some (b, d)) :
    b = poi ∨ (∃ d0, acc = some (b, d0)) := by
  cases acc with
  | none =>
    simp only [betterOf, Option.some.injEq, Prod.mk.injEq] at h
    exact Or.inl h.1.symm
  | some p =>
    obtain ⟨bb, bd⟩ := p
    simp only [betterOf] at h
    split at h
    · simp only [Option.some.injEq, Prod.mk.injEq] at h
      exact Or.inl h.1.symm
    · simp only [Option.some.injEq, Prod.mk.injEq] at h
      exact Or.inr ⟨bd, by rw [h.1]⟩

/-- A comparison step keeps the running distance attached to its
candidate. -/
theorem betterOf_dist (dist : Coord → Coord → ℚ) (pos : Coord) (poi : PoiDict)
    (acc : Option (PoiDict × ℚ))
    (hacc : ∀ a da, acc = some (a, da) → da = dist pos a.coordinates)
    (b : PoiDict) (d : ℚ) (h : betterOf dist pos poi acc = some (b, d)) :
    d = dist pos b.coordinates := by
  cases acc with
  | none =>
    simp only [betterOf, Option.some.injEq, Prod.mk.injEq] at h
    rw [← h.2, h.1]
  | some p =>
    obtain ⟨bb, bd⟩ := p
    simp only [betterOf] at h
    split at h
    · simp only [Option.some.injEq, Prod.mk.injEq] at h
      rw [← h.2, h.1]
    · simp only [Option.some.injEq, Prod.mk.injEq] at h
      rw [← h.2, ← h.1]
      exact hacc bb bd rfl

/-- The nearest-candidate scan only produces an element of the scanned pool
(or the incoming accumulator). -/
theorem findNearestAux_mem (dist : Coord → Coord → ℚ) (pos : Coord)
    (used : List String) :
    ∀ (cs : List PoiDict) (acc : Option (PoiDict × ℚ)) (b : PoiDict) (d : ℚ),
      findNearestAux dist pos used cs acc = some (b, d) →
      (∃ d0, acc = some (b, d0)) ∨ b ∈ cs := by
  intro cs
  induction cs with
  | nil =>
    intro acc b d h
    rw [findNearestAux] at h
    exact Or.inl ⟨d, h⟩
  | cons poi rest ih =>
    intro acc b d h
    rw [findNearestAux] at h
    by_cases hu : poi.id ∈ used
    · rw [if_pos hu] at h
      rcases ih _ _ _ h with h1 | h2
      · exact Or.inl h1
      · exact Or.inr (List.mem_cons_of_mem _ h2)
    · rw [if_neg hu] at h
      rcases ih _ _ _ h with ⟨d0, hd0⟩ | h2
      · rcases betterOf_cases dist pos poi acc b d0 hd0 with hb | hacc
        · exact Or.inr (by rw [hb]; exact List.mem_cons_self _ _)
        · exact Or.inl hacc
      · exact Or.inr (List.mem_cons_of_mem _ h2)

/-- The distance the nearest-candidate scan reports is the distance from
the scan position to the winning candidate. -/
theorem findNearestAux_dist (dist : Coord → Coord → ℚ) (pos : Coord)
    (used : List String) :
    ∀ (cs : List PoiDict) (acc : Option (PoiDict × ℚ)),
      (∀ a da, acc = some (a, da) → da = dist pos a.coordinates) →
      ∀ b d, findNearestAux dist pos used cs acc = some (b, d) →
        d = dist pos b.coordinates := by
  intro cs
  induction cs with
  | nil =>
    intro acc hacc b d h
    rw [findNearestAux] at h
    exact hacc b d h
  | cons poi rest ih =>
    intro acc hacc b d h
    rw [findNearestAux] at h
    by_cases hu : poi.id ∈ used
    · rw [if_pos hu] at h
      exact ih _ hacc _ _ h
    · rw [if_neg hu] at h
      refine ih _ ?_ _ _ h
      intro a da ha
      exact betterOf_dist dist pos poi acc hacc a da ha

/-- The winning candidate belongs to the pool. -/
theorem findNearest_mem {dist : Coord → Coord → ℚ} {pos : Coord}
    {used : List String} {cs : List PoiDict} {b : PoiDict} {d : ℚ}
    (h : findNearest dist pos used cs = some (b, d)) : b ∈ cs := by
  rcases findNearestAux_mem dist pos used cs none b d h with ⟨d0, hd0⟩ | h2
  · exact absurd hd0 (by simp)
  · exact h2

/-- The winning distance is the distance to the winning candidate. -/
theorem findNearest_dist {dist : Coord → Coord → ℚ} {pos : Coord}
    {used : List String} {cs : List PoiDict} {b : PoiDict} {d : ℚ}
    (h : findNearest dist pos used cs = some (b, d)) :
    d = dist pos b.coordinates :=
  findNearestAux_dist dist pos used cs none (by simp) b d h

/-- Combined invariant of the greedy loop: the committed stops extend the
accumulator, their walking-plus-dwell cost from the entry position fits the
entry budget, the stop count respects max_stops, each iteration consumes
one candidate (so iterations are bounded by the pool size), and fuel equal
to the pool size is never exhausted. -/
theorem routeLoopF_spec (dist : Coord → Coord → ℚ) (ms : ℕ) :
    ∀ (fuel : ℕ) (cands : List PoiDict) (stops : List POIStop) (pos : Coord)
      (rem : ℚ) (used : List String),
      (∃ t, (routeLoopF dist ms fuel cands stops pos rem used).1 = stops ++ t ∧
        (0 ≤ rem → routeCost dist pos t ≤ rem)) ∧
      (routeLoopF dist ms fuel cands stops pos rem used).1.length ≤
        max ms stops.length ∧
      (routeLoopF dist ms fuel cands stops pos rem used).2.1 ≤ cands.length ∧
      (cands.length ≤ fuel →
        (routeLoopF dist ms fuel cands stops pos rem used).2.2 = true) := by
  intro fuel
  induction fuel with
  | zero =>
    intro cands stops pos rem used
    rw [routeLoopF]
    split
    · rename_i hguard
      refine ⟨⟨[], by simp, fun h0 => by simpa [routeCost] using h0⟩,
        le_max_right _ _, Nat.zero_le _, fun hlen => ?_⟩
      exact absurd (List.length_eq_zero.mp (Nat.le_zero.mp hlen)) hguard.1
    · exact ⟨⟨[], by simp, fun h0 => by simpa [routeCost] using h0⟩,
        le_max_right _ _, Nat.zero_le _, fun _ => rfl⟩
  | succ fuel ih =>
    intro cands stops pos rem used
    rw [routeLoopF]
    split
    · rename_i hguard
      obtain ⟨hcne, hstops, -⟩ := hguard
      have hposlen : 0 < cands.length := List.length_pos.mpr hcne
      split
      · -- the scan found nothing: the loop breaks after this iteration
        exact ⟨⟨[], by simp, fun h0 => by simpa [routeCost] using h0⟩,
          le_max_right _ _, hposlen, fun _ => rfl⟩
      · rename_i best bd heq
        have hmem : best ∈ cands := findNearest_mem heq
        have hbd : bd = dist pos best.coordinates := findNearest_dist heq
        have herase : (cands.erase best).length = cands.length - 1 :=
          List.length_erase_of_mem hmem
        split
        · -- infeasible: the candidate is removed, position and budget kept
          obtain ⟨⟨t, ht, hcost⟩, hlen2, hiter, hflag⟩ :=
            ih (cands.erase best) stops pos rem used
          simp only [stepResult_stops, stepResult_iters, stepResult_flag]
          refine ⟨⟨t, ht, hcost⟩, hlen2, by omega, fun hfl => hflag (by omega)⟩
        · -- commit: the candidate becomes a stop
          rename_i hfeas
          obtain ⟨⟨t, ht, hcost⟩, hlen2, hiter, hflag⟩ :=
            ih (cands.erase best)
              (stops ++ [commitStop best (best.estimated_duration.getD 8)])
              best.coordinates
              (rem - (estimate_walking_time bd + best.estimated_duration.getD 8))
              (used ++ [best.id])
          have hrem' : 0 ≤ rem -
              (estimate_walking_time bd + best.estimated_duration.getD 8) := by
            push_neg at hfeas
            linarith
          simp only [stepResult_stops, stepResult_iters, stepResult_flag]
          refine ⟨⟨commitStop best (best.estimated_duration.getD 8) :: t, ?_, ?_⟩,
            ?_, by omega, fun hfl => hflag (by omega)⟩
          · rw [ht, List.append_assoc]
            rfl
          · intro h0
            have hc := hcost hrem'
            simp only [routeCost, commitStop]
            rw [← hbd]
            linarith
          · have hmax : max ms (stops ++
                [commitStop best (best.estimated_duration.getD 8)]).length = ms := by
              simp only [List.length_append, List.length_cons, List.length_nil]
              omega
            rw [hmax] at hlen2
            exact le_trans hlen2 (le_max_left _ _)
    · exact ⟨⟨[], by simp, fun h0 => by simpa [routeCost] using h0⟩,
        le_max_right _ _, Nat.zero_le _, fun _ => rfl⟩

/-- C2: for every start coordinate, candidate inputs, nonnegative time
budget and max stop count, the route built by generate_route keeps the sum
of walking-time estimates from each previous position plus dwell minutes
within the time budget, and its stop count within the max stop count. -/
theorem generate_route_respects_budget (dist : Coord → Coord → ℚ)
    (places : List Place) (all_pois : List PoiDict) (start_coords : Coord)
    (theme : String) (time_budget_minutes : ℚ) (max_stops : ℕ)
    (end_coords : Option Coord) (use_dynamic_search : Bool)
    (hb : 0 ≤ time_budget_minutes) :
    routeCost dist start_coords
        (generate_route dist places all_pois start_coords theme
          time_budget_minutes max_stops end_coords use_dynamic_search).stops ≤
      time_budget_minutes ∧
    (generate_route dist places all_pois start_coords theme time_budget_minutes
        max_stops end_coords use_dynamic_search).stops.length ≤ max_stops := by
  obtain ⟨⟨t, ht, hcost⟩, hlen, -, -⟩ :=
    routeLoopF_spec dist max_stops
      (candidate_pool theme max_stops places all_pois use_dynamic_search).length
      (candidate_pool theme max_stops places all_pois use_dynamic_search)
      [] start_coords time_budget_minutes []
  rw [List.nil_append] at ht
  constructor
  · show routeCost dist start_coords
      (routeLoopF dist max_stops
        (candidate_pool theme max_stops places all_pois use_dynamic_search).length
        (candidate_pool theme max_stops places all_pois use_dynamic_search)
        [] start_coords time_budget_minutes []).1 ≤ time_budget_minutes
    rw [ht]
    exact hcost hb
  · show (routeLoopF dist max_stops
        (candidate_pool theme max_stops places all_pois use_dynamic_search).length
        (candidate_pool theme max_stops places all_pois use_dynamic_search)
        [] start_coords time_budget_minutes []).1.length ≤ max_stops
    simpa using hlen

/-- C2 witness: a one-entry historical catalog, constant 250 m distances, a
60 minute budget and at most 8 stops. -/
theorem generate_route_respects_budget_witness :
    (0 : ℚ) ≤ 60 ∧
    routeCost distW (4, 4)
        (generate_route distW [] [poiW] (4, 4) ("historical") 60 8 none
          false).stops ≤ 60 ∧
    (generate_route distW [] [poiW] (4, 4) ("historical") 60 8 none
        false).stops.length ≤ 8 :=
  ⟨by norm_num,
    (generate_route_respects_budget distW [] [poiW] (4, 4) ("historical") 60 8
      none false (by norm_num)).1,
    (generate_route_respects_budget distW [] [poiW] (4, 4) ("historical") 60 8
      none false (by norm_num)).2⟩

/-- C6: for every finite candidate pool and loop state, the greedy loop
run with fuel equal to the pool size exits through one of its own exit
conditions (the fuel is never exhausted: every iteration that does not exit
permanently erases exactly one candidate from the pool), and the number of
iterations is at most the initial pool size. -/
theorem generate_route_loop_terminates (dist : Coord → Coord → ℚ)
    (max_stops : ℕ) (candidates : List PoiDict) (route_stops : List POIStop)
    (current_pos : Coord) (remaining_time : ℚ) (used_ids : List String) :
    (routeLoopF dist max_stops candidates.length candidates route_stops
        current_pos remaining_time used_ids).2.2 = true ∧
    (routeLoopF dist max_stops candidates.length candidates route_stops
        current_pos remaining_time used_ids).2.1 ≤ candidates.length := by
  obtain ⟨-, -, hiter, hflag⟩ :=
    routeLoopF_spec dist max_stops candidates.length candidates route_stops
      current_pos remaining_time used_ids
  exact ⟨hflag le_rfl, hiter⟩

/-- C5: a theme-change replan builds its fresh sub-route with time budget
max(20, original budget minus the elapsed minutes) and at most 5 stops;
when that sub-route is nonempty the stops up to and including the cursor
are preserved and everything after them is replaced by it, and when it is
empty the session is left entirely unchanged.  (The integer elapsed minutes
the source derives from the session creation time enter as a parameter.) -/
theorem replan_change_theme_spec (dist : Coord → Coord → ℚ)
    (places : List Place) (all_pois : List PoiDict) (tour : TourState)
    (query : String) (elapsed_minutes : ℤ)
    (h : 0 ≤ tour.route.current_stop_index) :
    ((generate_route dist places all_pois
        (tour.current_location.getD default_start_location) query
        ((max 20 (tour.preferences.tour_length - elapsed_minutes) : ℤ) : ℚ)
        5 none true).stops ≠ [] →
      (replan_change_theme dist places all_pois tour query
          elapsed_minutes).route.stops =
        tour.route.stops.take (tour.route.current_stop_index + 1).toNat ++
          (generate_route dist places all_pois
            (tour.current_location.getD default_start_location) query
            ((max 20 (tour.preferences.tour_length - elapsed_minutes) : ℤ) : ℚ)
            5 none true).stops ∧
      (generate_route dist places all_pois
          (tour.current_location.getD default_start_location) query
          ((max 20 (tour.preferences.tour_length - elapsed_minutes) : ℤ) : ℚ)
          5 none true).stops.length ≤ 5 ∧
      (tour.route.current_stop_index < (tour.route.stops.length : ℤ) →
        (replan_change_theme dist places all_pois tour query
            elapsed_minutes).route.stops.take
            (tour.route.current_stop_index + 1).toNat =
          tour.route.stops.take (tour.route.current_stop_index + 1).toNat)) ∧
    ((generate_route dist places all_pois
        (tour.current_location.getD default_start_location) query
        ((max 20 (tour.preferences.tour_length - elapsed_minutes) : ℤ) : ℚ)
        5 none true).stops = [] →
      replan_change_theme dist places all_pois tour query elapsed_minutes =
        tour) := by
  have hseglen : (generate_route dist places all_pois
      (tour.current_location.getD default_start_location) query
      ((max 20 (tour.preferences.tour_length - elapsed_minutes) : ℤ) : ℚ)
      5 none true).stops.length ≤ 5 := by
    obtain ⟨-, hlen, -, -⟩ :=
      routeLoopF_spec dist 5
        (candidate_pool query 5 places all_pois true).length
        (candidate_pool query 5 places all_pois true)
        [] (tour.current_location.getD default_start_location)
        ((max 20 (tour.preferences.tour_length - elapsed_minutes) : ℤ) : ℚ) []
    simpa using hlen
  constructor
  · intro hne
    have hres : (replan_change_theme dist places all_pois tour query
        elapsed_minutes).route.stops =
        tour.route.stops.take (tour.route.current_stop_index + 1).toNat ++
          (generate_route dist places all_pois
            (tour.current_location.getD default_start_location) query
            ((max 20 (tour.preferences.tour_length - elapsed_minutes) : ℤ) : ℚ)
            5 none true).stops := by
      simp only [replan_change_theme]
      rw [if_pos hne]
      show (tour.route.replace_after_cursor _).stops = _
      simp only [Route.replace_after_cursor, pySliceTo]
      rw [if_pos (by omega : (0 : ℤ) ≤ tour.route.current_stop_index + 1)]
    refine ⟨hres, hseglen, fun hidx => ?_⟩
    rw [hres]
    have hk : (tour.route.current_stop_index + 1).toNat ≤
        tour.route.stops.length := by omega
    rw [List.take_append_of_le_length (by simpa using hk), List.take_take]
    simp
  · intro hempty
    simp only [replan_change_theme]
    rw [if_neg (by simpa using hempty)]

/-- C5 witness: one preserved stop, a dynamic art search with one good
result, 10 elapsed minutes of a 60 minute budget. -/
theorem replan_change_theme_spec_witness :
    0 ≤ tourW.route.current_stop_index ∧
    (generate_route distW [pDyn] []
        (tourW.current_location.getD default_start_location) ("art")
        ((max 20 (tourW.preferences.tour_length - 10) : ℤ) : ℚ)
        5 none true).stops ≠ [] ∧
    (replan_change_theme distW [pDyn] [] tourW ("art") 10).route.stops =
      tourW.route.stops.take (tourW.route.current_stop_index + 1).toNat ++
        (generate_route distW [pDyn] []
          (tourW.current_location.getD default_start_location) ("art")
          ((max 20 (tourW.preferences.tour_length - 10) : ℤ) : ℚ)
          5 none true).stops := by
  have hne : (generate_route distW [pDyn] []
      (tourW.current_location.getD default_start_location) ("art")
      ((max 20 (tourW.preferences.tour_length - 10) : ℤ) : ℚ)
      5 none true).stops ≠ [] := by
    norm_num [generate_route, candidate_pool, dynamic_candidates, dynamic_keep,
      pDyn, ratingTruthy, place_to_candidate, routeLoopF, findNearest,
      findNearestAux, betterOf, distW, estimate_walking_time, commitStop,
      stepResult, List.erase, tourW, default_start_location]
  exact ⟨by decide, hne,
    ((replan_change_theme_spec distW [pDyn] [] tourW ("art") 10 (by decide)).1
      hne).1⟩

/-- C4 counterexample: when no search result passes the 2.0 threshold,
find_nearby_places returns the unfiltered list, so a place with a known
rating of 1.0 is returned rather than discarded. -/
theorem rating_filter_counterexample :
    find_nearby_places [pLow] = [pLow] ∧ pLow.rating = some 1 ∧
    ¬ ((2 : ℚ) ≤ 1) := by
  refine ⟨?_, rfl, by norm_num⟩
  norm_num [find_nearby_places, pLow, ratingTruthy]

/-- C4 amended: when at least one place has a known rating of at least 2.0,
every place returned by the ad-hoc replanning search with a known rating
has rating at least 2.0; when none does, the whole unfiltered list is
returned; and in dynamic route generation every place admitted to the pool
with a known rating has rating at least 3.5. -/
theorem rating_thresholds_amended (places places2 : List Place) :
    (places.filter
        (fun p => ratingTruthy p && decide ((2 : ℚ) ≤ p.rating.getD 0)) ≠ [] →
      ∀ p ∈ find_nearby_places places, ratingTruthy p = true →
        (2 : ℚ) ≤ p.rating.getD 0) ∧
    (places.filter
        (fun p => ratingTruthy p && decide ((2 : ℚ) ≤ p.rating.getD 0)) = [] →
      find_nearby_places places = places) ∧
    (∀ p ∈ dynamic_keep places2, ratingTruthy p = true →
      (7/2 : ℚ) ≤ p.rating.getD 0) := by
  refine ⟨?_, ?_, ?_⟩
  · intro hne p hp htr
    simp only [find_nearby_places] at hp
    rw [if_pos hne] at hp
    have hmem := (List.mem_filter.mp hp).2
    simp only [Bool.and_eq_true, decide_eq_true_eq] at hmem
    exact hmem.2
  · intro hempty
    simp only [find_nearby_places]
    rw [if_neg (by simp [hempty])]
  · intro p hp htr
    simp only [dynamic_keep] at hp
    have hmem := (List.mem_filter.mp hp).2
    simp only [Bool.not_eq_true', Bool.and_eq_false_iff] at hmem
    rcases hmem with hmem | hmem
    · rw [htr] at hmem
      exact absurd hmem (by simp)
    · have := of_decide_eq_false hmem
      linarith [not_lt.mp this]

/-- C4 amended witness: one high-rated and one low-rated place for the 2.0
branch, the empty-filter fallback on the low place alone, and the dynamic
3.5 filter on the high place. -/
theorem rating_thresholds_amended_witness :
    (2 : ℚ) ≤ pGood.rating.getD 0 ∧ find_nearby_places [pLow] = [pLow] ∧
    (7/2 : ℚ) ≤ pGood.rating.getD 0 := by
  refine ⟨?_, ?_, ?_⟩
  · exact (rating_thresholds_amended [pGood, pLow] [pGood]).1
      (by norm_num [pGood, pLow, ratingTruthy]) pGood
      (by norm_num [find_nearby_places, pGood, pLow, ratingTruthy])
      (by norm_num [pGood, ratingTruthy])
  · exact (rating_thresholds_amended [pLow] [pGood]).2.1
      (by norm_num [pLow, ratingTruthy])
  · exact (rating_thresholds_amended [pLow] [pGood]).2.2 pGood
      (by norm_num [dynamic_keep, pGood, ratingTruthy])
      (by norm_num [pGood, ratingTruthy])

/-- Elements of a Python integer range are at least its lower bound. -/
theorem intRange_le (a b i : ℤ) (h : i ∈ intRange a b) : a ≤ i := by
  unfold intRange at h
  obtain ⟨k, -, rfl⟩ := List.mem_map.mp h
  exact le_add_of_nonneg_right (Int.natCast_nonneg k)

/-- filterMap respects pointwise equal functions. -/
theorem listFilterMap_congr {α β : Type} {f g : α → Option β} :
    ∀ l : List α, (∀ a ∈ l, f a = g a) → l.filterMap f = l.filterMap g := by
  intro l
  induction l with
  | nil => intro _; rfl
  | cons a rest ih =>
    intro h
    rw [List.filterMap_cons, List.filterMap_cons, h a (List.mem_cons_self _ _)]
    cases hga : g a with
    | none => simp [ih (fun b hb => h b (List.mem_cons_of_mem _ hb))]
    | some v => simp [ih (fun b hb => h b (List.mem_cons_of_mem _ hb))]

/-- The insertion-point scan respects cost functions that agree on every
scanned index. -/
theorem bestInsertionAux_congr (cost1 cost2 : ℤ → ℚ) :
    ∀ (idxs : List ℤ) (acc : Option (ℤ × ℚ)),
      (∀ i ∈ idxs, cost1 i = cost2 i) →
      bestInsertionAux cost1 idxs acc = bestInsertionAux cost2 idxs acc := by
  intro idxs
  induction idxs with
  | nil => intro acc _; rfl
  | cons i rest ih =>
    intro acc h
    rw [bestInsertionAux, bestInsertionAux, h i (List.mem_cons_self _ _)]
    exact ih _ (fun j hj => h j (List.mem_cons_of_mem _ hj))

/-- C1 counterexample: with the cursor on the first of two stops, the
planner evaluates indices 1 and 2; the source takes the predecessor at the
first legal index from the stop list (cost 50, recorded index 1), while the
claim prescribes the current location of the user as that predecessor
(cost 590 there, hence recorded index 2 at cost 100) — the outputs
differ. -/
theorem insertion_prev_counterexample :
    rank_candidates_by_insertion distC tourC [candC] = [(candC, 1, 50)] ∧
    rank_candidates_claim distC tourC [candC] = [(candC, 2, 100)] ∧
    rank_candidates_by_insertion distC tourC [candC] ≠
      rank_candidates_claim distC tourC [candC] := by
  have h1 : rank_candidates_by_insertion distC tourC [candC] =
      [(candC, 1, 50)] := by
    norm_num [rank_candidates_by_insertion, tourC, candC, stopS0, stopS1,
      intRange, List.range, List.range', bestInsertionAux, bestStep,
      insertionCost, distC, pySortAsc, insertAsc, List.filterMap, Prod.mk.injEq]
  have h2 : rank_candidates_claim distC tourC [candC] = [(candC, 2, 100)] := by
    norm_num [rank_candidates_claim, tourC, candC, stopS0, stopS1, intRange,
      List.range, List.range', bestInsertionAux, bestStep, insertionCost_claim,
      distC, pySortAsc, insertAsc, List.filterMap, Prod.mk.injEq]
  refine ⟨h1, h2, ?_⟩
  intro hcontra
  rw [h1, h2] at hcontra
  norm_num [Prod.mk.injEq] at hcontra

/-- C1 amended: for every session whose cursor is nonnegative (all
reachable sessions), the insertion planner behaves as described with the
predecessor at every legal index i — the first included — being
stops[i-1].coordinates: the current-location branch of the source is dead
because the scan starts at index currentIndex + 1 >= 1. -/
theorem rank_candidates_amended_correct (dist : Coord → Coord → ℚ)
    (tour : TourState) (candidates : List Place)
    (h : 0 ≤ tour.route.current_stop_index) :
    rank_candidates_by_insertion dist tour candidates =
      rank_candidates_amended dist tour candidates := by
  simp only [rank_candidates_by_insertion, rank_candidates_amended]
  congr 1
  apply listFilterMap_congr
  intro place hplace
  congr 1
  apply bestInsertionAux_congr
  intro i hi
  have h1 : tour.route.current_stop_index + 1 ≤ i := intRange_le _ _ _ hi
  simp only [insertionCost, insertionCost_amended]
  rw [if_neg (by omega : ¬ i = 0)]

/-- C1 amended witness: the two-stop session of the counterexample. -/
theorem rank_candidates_amended_witness :
    0 ≤ tourC.route.current_stop_index ∧
    rank_candidates_by_insertion distC tourC [candC] =
      rank_candidates_amended distC tourC [candC] :=
  ⟨by decide, rank_candidates_amended_correct distC tourC [candC] (by decide)⟩

/-- The argument of a complex number, converted to degrees, lies in
(-180, 180]. -/
theorem degrees_arg_range (z : ℂ) :
    -180 < degrees (Complex.arg z) ∧ degrees (Complex.arg z) ≤ 180 := by
  have h1 := Complex.neg_pi_lt_arg z
  have h2 := Complex.arg_le_pi z
  have hc : (0 : ℝ) < 180 / Real.pi := by positivity
  have heq1 : -Real.pi * (180 / Real.pi) = -180 := by
    field_simp
    ring
  have heq2 : Real.pi * (180 / Real.pi) = 180 := by
    field_simp
  unfold degrees
  constructor
  · have h3 := mul_lt_mul_of_pos_right h1 hc
    linarith
  · have h3 := mul_le_mul_of_nonneg_right h2 (le_of_lt hc)
    linarith

/-- C8 counterexample: walking due west from the origin, the fallback
bearing is -90 degrees, outside the interval [0, 360) the claim
prescribes (the source never normalizes the atan2 result). -/
theorem bearing_fallback_counterexample :
    bearing_degrees (0, 0) (0, -1) = -90 ∧
    ¬ (0 ≤ bearing_degrees (0, 0) (0, -1) ∧
        bearing_degrees (0, 0) (0, -1) < 360) := by
  have hs : 0 < Real.sin (Real.pi / 180) :=
    Real.sin_pos_of_pos_of_lt_pi (by positivity)
      (div_lt_self Real.pi_pos (by norm_num))
  have hmain : bearing_degrees (0, 0) (0, -1) = -90 := by
    simp only [bearing_degrees, radians, atan2, degrees]
    norm_num [Real.sin_zero, Real.cos_zero, Real.sin_neg]
    generalize hgen : Real.sin (Real.pi / 180) = s at hs ⊢
    have hz : ({ re := 0, im := -s } : ℂ) = Complex.ofReal s * (-Complex.I) := by
      apply Complex.ext <;> simp
    rw [hz, Complex.arg_real_mul _ hs, Complex.arg_neg_I]
    field_simp
    ring
  refine ⟨hmain, ?_⟩
  rw [hmain]
  norm_num

/-- C8 amended: for every pair of distinct coordinates the fallback bearing
lies in (-180, 180] (the range of atan2 in degrees, not [0, 360)), and the
cardinal direction of the instruction is the element of the 8-direction
list selected by rounding bearing/45 and reducing modulo 8 with the
nonnegative Python modulo. -/
theorem bearing_range_and_cardinal (origin destination : ℝ × ℝ)
    (_h : origin ≠ destination) :
    (-180 < bearing_degrees origin destination ∧
      bearing_degrees origin destination ≤ 180) ∧
    cardinal_direction origin destination =
      directions_list.getD
        (((pyRound (bearing_degrees origin destination / 45)) % 8).toNat)
        ("north") := by
  refine ⟨?_, rfl⟩
  simp only [bearing_degrees, atan2]
  exact degrees_arg_range _

/-- C8 amended witness: origin against one degree west of it. -/
theorem bearing_range_and_cardinal_witness :
    ((0 : ℝ), (0 : ℝ)) ≠ ((0 : ℝ), (-1 : ℝ)) ∧
    ((-180 < bearing_degrees (0, 0) (0, -1) ∧
      bearing_degrees (0, 0) (0, -1) ≤ 180) ∧
    cardinal_direction (0, 0) (0, -1) =
      directions_list.getD
        (((pyRound (bearing_degrees (0, 0) (0, -1) / 45)) % 8).toNat)
        ("north")) := by
  have hne : ((0 : ℝ), (0 : ℝ)) ≠ ((0 : ℝ), (-1 : ℝ)) := by
    intro hcontra
    rw [Prod.ext_iff] at hcontra
    norm_num at hcontra
  exact ⟨hne, bearing_range_and_cardinal _ _ hne⟩

end HackTour
